import Mathlib

/-!
Verification development for `get-workflow-version-action`
(`src/get_workflow_version/main.py`).

The program resolves the commit SHA of a reusable GitHub Actions workflow
from the caller run metadata.  The core logic embedded here:

* `ReusableWorkflow.from_github_api` — parsing one referenced-workflow
  record with the Python regex
  `re.fullmatch(r"(?P<repository>.*?)/\.github/workflows/(?P<file_name>.*?)@(?P<ref>.*?)", path)`.
  The lazy groups mean: `repository` ends at the FIRST occurrence of the
  literal `/.github/workflows/`, `file_name` ends at the FIRST `@` after
  that marker, and `ref` (lazy but anchored at the end by `fullmatch`)
  takes the whole remainder.  the Python dot atom `.` does not match a newline, so a
  newline inside any group makes the match fail.
* `mainResolve` — the HTTP-outcome classification and the
  match/disambiguation over the `referenced_workflows` list in `main`.
  The Python set of frozen dataclasses is modelled by `List.dedup` on the
  filtered list (the set holds exactly the distinct matches; its
  iteration order is arbitrary, `dedup` is one determinization).
* Error messages are modelled as the exact f-string texts; `pyRepr`
  models CPython `repr` for strings free of quotes and escapes (the only
  values the program interpolates).
-/

/-- The literal marker `/.github/workflows/` of the regex, as characters. -/
def marker : List Char := "/.github/workflows/".data

/-- Split a character list at the FIRST occurrence of `sep`:
`splitFirst sep l = some (pre, post)` with `l = pre ++ sep ++ post` and
`pre` shortest possible; `none` when `sep` does not occur in `l`.
This is the semantics of a lazy regex group followed by a literal. -/
def splitFirst (sep : List Char) : List Char → Option (List Char × List Char)
  | [] => none
  | c :: cs =>
    if sep.isPrefixOf (c :: cs) then some ([], (c :: cs).drop sep.length)
    else
      match splitFirst sep cs with
      | some (pre, post) => some (c :: pre, post)
      | none => none

/-- One referenced reusable workflow, mirroring the frozen dataclass
`ReusableWorkflow(sha, repository, file_name, ref)`. -/
structure ReusableWorkflow where
  sha : String
  repository : String
  file_name : String
  ref : String
deriving DecidableEq

/-- Embedding of `ReusableWorkflow.from_github_api`: Python
`re.fullmatch(r"(?P<repository>.*?)/\.github/workflows/(?P<file_name>.*?)@(?P<ref>.*?)", path)`
followed by `assert match`.  `none` models the fatal `AssertionError`.
The regex matches iff the marker occurs in `path`, the text before its
first occurrence (= `repository`) has no newline, and the remainder after
the marker contains an `@` and no newline; `file_name` is the part before
the first such `@` and `ref` everything after it. -/
def from_github_api (path sha : String) : Option ReusableWorkflow :=
  match splitFirst marker path.data with
  | none => none
  | some (repo, rest) =>
    if '\n' ∈ repo then none
    else
      match splitFirst ['@'] rest with
      | none => none
      | some (fname, ref) =>
        if '\n' ∈ fname ∨ '\n' ∈ ref then none
        else some ⟨sha, ⟨repo⟩, ⟨fname⟩, ⟨ref⟩⟩

/-- CPython `repr` of a string, modelled for strings containing no quote
or escape character (all values the program interpolates with `{x=}`). -/
def pyRepr (s : String) : String := "\x27" ++ s ++ "\x27"

/-- Message raised on HTTP 403 of the run-metadata request. -/
def permissionMessage : String :=
  "Ensure that GitHub job has `permissions: actions: read`. GitHub API call 403 forbidden\n" ++
  "https://docs.github.com/en/actions/security-guides/automatic-token-authentication#modifying-the-permissions-for-the-github_token"

/-- Message raised on 404 + repository 404 when a token was supplied. -/
def repoNotFoundTokenMessage (repo : String) : String :=
  "caller_repository=" ++ pyRepr repo ++
  " not found. Check if `github-token` input has correct permissions"

/-- Message raised on 404 + repository 404 when no token was supplied. -/
def repoNotFoundNoTokenMessage (repo : String) : String :=
  "caller_repository=" ++ pyRepr repo ++
  " not found. If repository is private, pass `github-token` input to authenticate to GitHub"

/-- Message raised on 404 when the repository-existence request did not 404. -/
def runNotFoundMessage (runId : Nat) : String :=
  "Workflow run not found. Check if caller_run_id=" ++ toString runId ++ " is valid"

/-- Message raised when no referenced workflow matches the target. -/
def noVersionMessage (fileName repo : String) : String :=
  "No reference found for reusable_workflow_file_name=" ++ pyRepr fileName ++
  " reusable_workflow_repository=" ++ pyRepr repo

/-- Header of the ambiguous-versions message. -/
def ambiguousHeader (fileName repo : String) : String :=
  "Cannot resolve multiple versions found for reusable_workflow_file_name=" ++
  pyRepr fileName ++ " reusable_workflow_repository=" ++ pyRepr repo ++ ":"

/-- The `\n• {ref} ({sha})` lines appended for each distinct match. -/
def ambiguousLines : List ReusableWorkflow → String
  | [] => ""
  | w :: ws => "\n• " ++ w.ref ++ " (" ++ w.sha ++ ")" ++ ambiguousLines ws

/-- Error taxonomy of `main`, each failure carrying its message where the
code formats one. -/
inductive Failure where
  | permissionError (message : String)
  | repositoryNotFound (message : String)
  | runNotFound (message : String)
  | httpError (status : Nat)
  | malformedUpstreamData
  | noVersionFound (message : String)
  | ambiguousVersion (message : String)
deriving DecidableEq

/-- Parse every entry of `referenced_workflows` (the list comprehension in
`main`); `none` when any entry fails the shape assertion. -/
def parseAll : List (String × String) → Option (List ReusableWorkflow)
  | [] => some []
  | (p, s) :: rest =>
    match from_github_api p s with
    | none => none
    | some w => (parseAll rest).map (w :: ·)

/-- The filter of the set comprehension in `main`. -/
def matchesTarget (targetRepo targetFile : String) (w : ReusableWorkflow) : Bool :=
  w.repository == targetRepo && w.file_name == targetFile

/-- The post-HTTP part of `main`: parse all referenced workflows, filter by
target repository and file name into a set (`dedup`), then resolve to
exactly one version or fail. -/
def resolveWorkflows (targetRepo targetFile : String)
    (entries : List (String × String)) : Except Failure (String × String) :=
  match parseAll entries with
  | none => .error .malformedUpstreamData
  | some ws =>
    match (ws.filter (matchesTarget targetRepo targetFile)).dedup with
    | [] => .error (.noVersionFound (noVersionMessage targetFile targetRepo))
    | [w] => .ok (w.sha, w.ref)
    | ms => .error (.ambiguousVersion (ambiguousHeader targetFile targetRepo ++ ambiguousLines ms))

/-- Python truthiness of the optional `GH_TOKEN` value (`if token:`):
present and non-empty. -/
def tokenPresent : Option String → Bool
  | none => false
  | some t => t != ""

/-- The two headers always sent. -/
def baseHeaders : List (String × String) :=
  [("Accept", "application/vnd.github+json"), ("X-GitHub-Api-Version", "2022-11-28")]

/-- Request headers: `Authorization: Bearer <token>` added iff the token is
present (Python truthiness). -/
def buildHeaders (token : Option String) : List (String × String) :=
  match token with
  | some t => if t != "" then baseHeaders ++ [("Authorization", "Bearer " ++ t)] else baseHeaders
  | none => baseHeaders

/-- Observable HTTP outcomes of one invocation: status of the run-metadata
request, status of the repository-existence request (consulted only on the
404 path), and the `referenced_workflows` entries (`path`, `sha`) of the
JSON body (consulted only when no status error is raised). -/
structure ApiOutcome where
  runStatus : Nat
  repoStatus : Nat
  referenced_workflows : List (String × String)

/-- Embedding of `main` after the HTTP requests: `raise_for_status` raises
for statuses 400–599; 403 and 404 are classified, 404 further split by the
repository-existence status; otherwise the matching logic runs. -/
def mainResolve (caller_repository : String) (caller_run_id : Nat)
    (reusable_workflow_repository reusable_workflow_file_name : String)
    (token : Option String) (out : ApiOutcome) : Except Failure (String × String) :=
  if 400 ≤ out.runStatus ∧ out.runStatus < 600 then
    if out.runStatus = 403 then .error (.permissionError permissionMessage)
    else if out.runStatus = 404 then
      if out.repoStatus = 404 then
        if tokenPresent token then
          .error (.repositoryNotFound (repoNotFoundTokenMessage caller_repository))
        else .error (.repositoryNotFound (repoNotFoundNoTokenMessage caller_repository))
      else .error (.runNotFound (runNotFoundMessage caller_run_id))
    else .error (.httpError out.runStatus)
  else
    resolveWorkflows reusable_workflow_repository reusable_workflow_file_name
      out.referenced_workflows

/-- The message a failure surfaces at the CLI boundary. -/
def failureMessage : Failure → String
  | .permissionError m => m
  | .repositoryNotFound m => m
  | .runNotFound m => m
  | .httpError s => "HTTPError: status " ++ toString s
  | .malformedUpstreamData => "AssertionError"
  | .noVersionFound m => m
  | .ambiguousVersion m => m

/-- Everything the program prints for a given resolution result: the
success line `Reusable workflow version: <sha> (ref: <ref>)` or the error
message. -/
def programOutput : Except Failure (String × String) → String
  | .ok (sha, ref) => "Reusable workflow version: " ++ sha ++ " (ref: " ++ ref ++ ")"
  | .error f => failureMessage f

/-- The line appended to the `GITHUB_OUTPUT` file on success. -/
def githubOutputLine (sha : String) : String := "sha=" ++ sha ++ "\n"

example : from_github_api "canonical/data-platform-workflows/.github/workflows/build_charm.yaml@v13.1.2" "abc" =
    some ⟨"abc", "canonical/data-platform-workflows", "build_charm.yaml", "v13.1.2"⟩ := by decide

example : from_github_api "acme/infra/.github/workflows/build.yaml@v2.0.0" "abc123" =
    some ⟨"abc123", "acme/infra", "build.yaml", "v2.0.0"⟩ := by decide

example : from_github_api "no-marker@v1" "abc" = none := by decide

/-- Soundness of `splitFirst`: a successful split is a decomposition. -/
theorem splitFirst_sound (sep : List Char) (l : List Char) :
    ∀ pre post, splitFirst sep l = some (pre, post) → l = pre ++ sep ++ post := by
  induction l with
  | nil => intro pre post h; simp [splitFirst] at h
  | cons c cs ih =>
    intro pre post h
    rw [splitFirst] at h
    split at h
    case isTrue hp =>
      obtain ⟨t, ht⟩ := List.isPrefixOf_iff_prefix.mp hp
      simp only [Option.some.injEq, Prod.mk.injEq] at h
      obtain ⟨hpre, hpost⟩ := h
      subst hpre
      rw [← ht] at hpost ⊢
      rw [List.drop_left] at hpost
      rw [← hpost]
      simp
    case isFalse hp =>
      cases hsf : splitFirst sep cs with
      | none => rw [hsf] at h; simp at h
      | some pr =>
        obtain ⟨pre0, post0⟩ := pr
        rw [hsf] at h
        simp only [Option.some.injEq, Prod.mk.injEq] at h
        obtain ⟨hpre, hpost⟩ := h
        subst hpre; subst hpost
        rw [ih pre0 post0 hsf]
        simp

/-- When the first occurrence of `sep` in `R ++ sep` is at position
`R.length`, `splitFirst` on `R ++ sep ++ rest` splits exactly there. -/
theorem splitFirst_append (sep : List Char) (hsep : sep ≠ []) :
    ∀ (R rest : List Char), (∀ a b, R ++ sep = a ++ sep ++ b → a = R) →
      splitFirst sep (R ++ sep ++ rest) = some (R, rest) := by
  intro R
  induction R with
  | nil =>
    intro rest _
    obtain ⟨c, cs, rfl⟩ : ∃ c cs, sep = c :: cs := by
      cases sep with
      | nil => exact absurd rfl hsep
      | cons c cs => exact ⟨c, cs, rfl⟩
    have hshape : ([] : List Char) ++ (c :: cs) ++ rest = c :: (cs ++ rest) := by simp
    rw [hshape, splitFirst]
    have hp : (c :: cs).isPrefixOf (c :: (cs ++ rest)) = true := by
      rw [List.isPrefixOf_iff_prefix]
      exact ⟨rest, by simp⟩
    rw [if_pos hp]
    have : (c :: (cs ++ rest)).drop (c :: cs).length = rest := by simp
    rw [this]
  | cons r R0 ih =>
    intro rest H
    have hshape : (r :: R0) ++ sep ++ rest = r :: (R0 ++ sep ++ rest) := by simp
    have hnp : ¬ sep.isPrefixOf (r :: (R0 ++ sep ++ rest)) = true := by
      intro hp
      rw [List.isPrefixOf_iff_prefix] at hp
      have hp2 : sep <+: ((r :: R0) ++ sep) ++ rest := by
        simpa [List.append_assoc] using hp
      have hp3 : (r :: R0) ++ sep <+: ((r :: R0) ++ sep) ++ rest := ⟨rest, rfl⟩
      have hp4 : sep <+: (r :: R0) ++ sep :=
        List.prefix_of_prefix_length_le hp2 hp3
          (by simp only [List.length_append, List.length_cons]; omega)
      obtain ⟨b, hb⟩ := hp4
      have := H [] b (by rw [← hb]; simp)
      simp at this
    have H0 : ∀ a b, R0 ++ sep = a ++ sep ++ b → a = R0 := by
      intro a b h
      have := H (r :: a) b (by rw [List.cons_append, h]; simp)
      simpa using this
    rw [hshape, splitFirst, if_neg hnp, ih rest H0]

/-- Decidable form of "the marker occurs in `R ++ sep` only at the end":
no occurrence of `sep` starts at any position `< R.length`. -/
def noEarlyOccur (sep R : List Char) : Bool :=
  (List.range R.length).all fun i => !(sep.isPrefixOf ((R ++ sep).drop i))

/-- Bridge from the decidable form to the decomposition form. -/
theorem noEarlyOccur_spec (sep R : List Char) (h : noEarlyOccur sep R = true) :
    ∀ a b, R ++ sep = a ++ sep ++ b → a = R := by
  intro a b hab
  have hlen : a.length + sep.length + b.length = R.length + sep.length := by
    have := congrArg List.length hab
    simp at this
    omega
  rcases Nat.lt_or_ge a.length R.length with hlt | hge
  · exfalso
    have hdrop : (R ++ sep).drop a.length = sep ++ b := by
      rw [hab, List.append_assoc]
      exact List.drop_left a (sep ++ b)
    have hpre : sep.isPrefixOf ((R ++ sep).drop a.length) = true := by
      rw [hdrop, List.isPrefixOf_iff_prefix]
      exact ⟨b, rfl⟩
    have := (List.all_eq_true.mp h) a.length (List.mem_range.mpr hlt)
    simp [hpre] at this
  · have heq : a.length = R.length := by omega
    have h1 : (R ++ sep).take R.length = R := List.take_left R sep
    have h2 : (a ++ (sep ++ b)).take a.length = a := List.take_left a (sep ++ b)
    rw [hab, List.append_assoc, ← heq, h2] at h1
    exact h1

/-- A character absent from `F` occurs in `F ++ [c]` only at the end. -/
theorem singleton_first_split (c : Char) (F : List Char) (h : c ∉ F) :
    ∀ a b, F ++ [c] = a ++ [c] ++ b → a = F := by
  induction F with
  | nil =>
    intro a b hab
    cases a with
    | nil => rfl
    | cons x a0 =>
      exfalso
      have := congrArg List.length hab
      simp at this
  | cons f F0 ih =>
    intro a b hab
    have hcf : c ≠ f := fun hh => h (by rw [hh]; exact List.mem_cons_self f F0)
    have hcF0 : c ∉ F0 := fun hh => h (List.mem_cons_of_mem f hh)
    cases a with
    | nil =>
      exfalso
      simp only [List.cons_append, List.nil_append, List.cons.injEq] at hab
      exact hcf hab.1.symm
    | cons x a0 =>
      have h1 : f = x ∧ F0 ++ [c] = a0 ++ [c] ++ b := by
        simpa using hab
      have h2 := ih hcF0 a0 b h1.2
      simp [h1.1, h2]

/-- Successful parse of a path built from its four parts: when the marker
first occurs at the end of `R`, the file name contains no `@`, and no part
contains a newline, the regex splits the path exactly at those parts. -/
theorem from_github_api_shape (R F Ref sha : String)
    (hR : noEarlyOccur marker R.data = true)
    (hF : '@' ∉ F.data)
    (hnR : '\n' ∉ R.data) (hnF : '\n' ∉ F.data) (hnRef : '\n' ∉ Ref.data) :
    from_github_api (R ++ "/.github/workflows/" ++ F ++ "@" ++ Ref) sha
      = some ⟨sha, R, F, Ref⟩ := by
  have hpath : (R ++ "/.github/workflows/" ++ F ++ "@" ++ Ref).data
      = R.data ++ marker ++ (F.data ++ ['@'] ++ Ref.data) := by
    simp only [String.data_append, marker, List.append_assoc]
  have h1 := splitFirst_append marker (by decide) R.data (F.data ++ ['@'] ++ Ref.data)
      (noEarlyOccur_spec marker R.data hR)
  have h2 := splitFirst_append ['@'] (by decide) F.data Ref.data
      (singleton_first_split '@' F.data hF)
  simp only [from_github_api, hpath, h1, h2]
  simp [hnR, hnF, hnRef]

/-- A successful parse recovers exactly the captured substrings: the path
decomposes at the first marker and the first following `@`, and the commit
identifier is passed through unchanged. -/
theorem from_github_api_decomp (path sha : String) (w : ReusableWorkflow)
    (h : from_github_api path sha = some w) :
    path.data = w.repository.data ++ marker ++ w.file_name.data ++ ['@'] ++ w.ref.data
      ∧ w.sha = sha := by
  unfold from_github_api at h
  cases hs : splitFirst marker path.data with
  | none => rw [hs] at h; simp at h
  | some pr =>
    obtain ⟨repo, rest⟩ := pr
    rw [hs] at h
    dsimp only at h
    by_cases hn : '\n' ∈ repo
    · simp [hn] at h
    · rw [if_neg hn] at h
      cases hs2 : splitFirst ['@'] rest with
      | none => rw [hs2] at h; simp at h
      | some pr2 =>
        obtain ⟨fname, ref⟩ := pr2
        rw [hs2] at h
        dsimp only at h
        by_cases hn2 : '\n' ∈ fname ∨ '\n' ∈ ref
        · simp [hn2] at h
        · rw [if_neg hn2] at h
          simp only [Option.some.injEq] at h
          subst h
          refine ⟨?_, rfl⟩
          rw [splitFirst_sound marker path.data repo rest hs,
            splitFirst_sound ['@'] rest fname ref hs2]
          simp [List.append_assoc]

/-- C1, corrected. The claim fails as stated: with
`R = "x/.github/workflows"` (which does not contain the marker
`/.github/workflows/`) and `F = "f.yaml"` (no `/` or `@`), the path
`R ++ "/.github/workflows/" ++ F ++ "@" ++ "v1"` has an earlier,
overlap-induced occurrence of the marker, so the lazy `repository` group
stops there: parsing succeeds but yields `repository = "x"`, not `R`. -/
theorem c1_counterexample :
    (¬ marker <:+: "x/.github/workflows".data) ∧
    ('/' ∉ "f.yaml".data ∧ '@' ∉ "f.yaml".data) ∧
    (from_github_api
        ("x/.github/workflows" ++ "/.github/workflows/" ++ "f.yaml" ++ "@" ++ "v1")
        "abc").map ReusableWorkflow.repository = some "x" ∧
    "x" ≠ "x/.github/workflows" := by decide

/-- C1 as amended: for a path `R ++ "/.github/workflows/" ++ F ++ "@" ++ Ref`
where additionally the first occurrence of the marker in the path is the
one at the end of `R` (`noEarlyOccur`), and `R`, `F`, `Ref` contain no
newline, parsing the pair with any commit identifier `C` succeeds and
yields `repository = R`, `fileName = F`, `ref = Ref`, `commitId = C`. -/
theorem c1_parse_valid_shape (R F Ref C : String)
    (hfirst : noEarlyOccur marker R.data = true)
    (_hslash : '/' ∉ F.data) (hat : '@' ∉ F.data)
    (hnR : '\n' ∉ R.data) (hnF : '\n' ∉ F.data) (hnRef : '\n' ∉ Ref.data) :
    from_github_api (R ++ "/.github/workflows/" ++ F ++ "@" ++ Ref) C
      = some ⟨C, R, F, Ref⟩ :=
  from_github_api_shape R F Ref C hfirst hat hnR hnF hnRef

/-- Witness for the amended C1 at the end-to-end example of the spec. -/
theorem c1_parse_valid_shape_witness :
    from_github_api ("acme/infra" ++ "/.github/workflows/" ++ "build.yaml" ++ "@" ++ "v2.0.0")
        "abc123"
      = some ⟨"abc123", "acme/infra", "build.yaml", "v2.0.0"⟩ :=
  c1_parse_valid_shape "acme/infra" "build.yaml" "v2.0.0" "abc123"
    (by decide) (by decide) (by decide) (by decide) (by decide) (by decide)

/-- C6, corrected. The claim fails as stated: with two `@` after the
marker, the lazy `file_name` group stops at the FIRST `@`, not the last:
for path `o/r/.github/workflows/f@x@v1` the code yields `fileName = "f"`
and `ref = "x@v1"`, while the last-`@` rule of the claim would give
`fileName = "f@x"` and `ref = "v1"`. -/
theorem c6_counterexample :
    (from_github_api ("o/r" ++ "/.github/workflows/" ++ "f" ++ "@" ++ "x" ++ "@" ++ "v1")
        "s").map ReusableWorkflow.ref = some "x@v1" ∧
    (from_github_api ("o/r" ++ "/.github/workflows/" ++ "f" ++ "@" ++ "x" ++ "@" ++ "v1")
        "s").map ReusableWorkflow.file_name = some "f" ∧
    ("x@v1" : String) ≠ "v1" ∧ ("f" : String) ≠ "f@x" := by decide

/-- C6 as amended: the split between `fileName` and `ref` is governed by
the FIRST `@` after the marker: for a path whose remainder after the
marker is `F ++ "@" ++ Ref1 ++ "@" ++ Ref2` with `@` not in `F`,
`fileName = F` and `ref = Ref1 ++ "@" ++ Ref2` (the remainder after the
first `@`, keeping any later `@`). -/
theorem c6_first_at_split (R F Ref1 Ref2 sha : String)
    (hfirst : noEarlyOccur marker R.data = true)
    (hat : '@' ∉ F.data)
    (hnR : '\n' ∉ R.data) (hnF : '\n' ∉ F.data)
    (hnRef1 : '\n' ∉ Ref1.data) (hnRef2 : '\n' ∉ Ref2.data) :
    from_github_api (R ++ "/.github/workflows/" ++ F ++ "@" ++ (Ref1 ++ "@" ++ Ref2)) sha
      = some ⟨sha, R, F, Ref1 ++ "@" ++ Ref2⟩ := by
  apply from_github_api_shape R F (Ref1 ++ "@" ++ Ref2) sha hfirst hat hnR hnF
  simp [String.data_append, hnRef1, hnRef2]

/-- Witness for the amended C6 at a concrete two-`@` path. -/
theorem c6_first_at_split_witness :
    from_github_api ("o/r" ++ "/.github/workflows/" ++ "f" ++ "@" ++ ("x" ++ "@" ++ "v1")) "s"
      = some ⟨"s", "o/r", "f", "x" ++ "@" ++ "v1"⟩ :=
  c6_first_at_split "o/r" "f" "x" "v1" "s"
    (by decide) (by decide) (by decide) (by decide) (by decide) (by decide)

/-- C7, corrected. The claim fails as stated: all three lazy groups match
the empty string, so a successful parse can leave fields empty.  For path
`/.github/workflows/f@v` parsing succeeds with `repository = ""`. -/
theorem c7_counterexample :
    (from_github_api "/.github/workflows/f@v" "abc").isSome = true ∧
    (from_github_api "/.github/workflows/f@v" "abc").map ReusableWorkflow.repository
      = some "" := by decide

/-- C7 as amended: after a successful parse the four fields are exactly
the captured substrings — the path decomposes as
`repository ++ "/.github/workflows/" ++ fileName ++ "@" ++ ref` and
`commitId` equals the supplied identifier — but any field may be empty. -/
theorem c7_fields_are_captures (path sha : String) (w : ReusableWorkflow)
    (h : from_github_api path sha = some w) :
    path = w.repository ++ "/.github/workflows/" ++ w.file_name ++ "@" ++ w.ref
      ∧ w.sha = sha := by
  obtain ⟨hd, hsha⟩ := from_github_api_decomp path sha w h
  refine ⟨?_, hsha⟩
  apply String.ext
  rw [hd]
  simp [String.data_append, marker]

/-- Witness for the amended C7 at a concrete parse. -/
theorem c7_fields_are_captures_witness :
    ("a/.github/workflows/f@v" : String) = "a" ++ "/.github/workflows/" ++ "f" ++ "@" ++ "v"
      ∧ ("s" : String) = "s" :=
  c7_fields_are_captures "a/.github/workflows/f@v" "s" ⟨"s", "a", "f", "v"⟩ (by decide)

/-- C8: parsing is total only on paths of the documented shape — a
successful parse exhibits a decomposition
`R ++ "/.github/workflows/" ++ F ++ "@" ++ Ref` (contrapositive: any path
without that shape fails the match and the `assert`), and a failed parse
of an entry aborts resolution with the fatal `malformedUpstreamData`
outcome, not a recoverable user error and no partial reference. -/
theorem c8_parse_fatal (path sha : String) :
    (∀ w, from_github_api path sha = some w →
      ∃ R F Ref : String, path = R ++ "/.github/workflows/" ++ F ++ "@" ++ Ref) ∧
    (from_github_api path sha = none → ∀ targetRepo targetFile rest,
      resolveWorkflows targetRepo targetFile ((path, sha) :: rest)
        = .error .malformedUpstreamData) := by
  constructor
  · intro w h
    obtain ⟨hd, _⟩ := from_github_api_decomp path sha w h
    refine ⟨w.repository, w.file_name, w.ref, ?_⟩
    apply String.ext
    rw [hd]
    simp [String.data_append, marker]
  · intro h targetRepo targetFile rest
    simp [resolveWorkflows, parseAll, h]

/-- Witness for C8: a parseable path decomposes; a shapeless entry aborts. -/
theorem c8_parse_fatal_witness :
    (∃ R F Ref : String,
      ("a/.github/workflows/f@v" : String) = R ++ "/.github/workflows/" ++ F ++ "@" ++ Ref) ∧
    resolveWorkflows "o/r" "f" [("no-marker", "s")] = .error .malformedUpstreamData :=
  ⟨(c8_parse_fatal "a/.github/workflows/f@v" "s").1 ⟨"s", "a", "f", "v"⟩ (by decide),
   (c8_parse_fatal "no-marker" "s").2 (by decide) "o/r" "f" []⟩

/-- On any run status outside the raising range 400–599, `main` proceeds to
the matching logic. -/
theorem mainResolve_success_path (caller_repository : String) (caller_run_id : Nat)
    (targetRepo targetFile : String) (token : Option String) (out : ApiOutcome)
    (hstatus : ¬ (400 ≤ out.runStatus ∧ out.runStatus < 600)) :
    mainResolve caller_repository caller_run_id targetRepo targetFile token out
      = resolveWorkflows targetRepo targetFile out.referenced_workflows := by
  rw [mainResolve, if_neg hstatus]

/-- A singleton set of matches resolves to that match. -/
theorem resolveWorkflows_single (targetRepo targetFile : String)
    (entries : List (String × String)) (ws : List ReusableWorkflow) (w : ReusableWorkflow)
    (hparse : parseAll entries = some ws)
    (hone : (ws.filter (matchesTarget targetRepo targetFile)).dedup = [w]) :
    resolveWorkflows targetRepo targetFile entries = .ok (w.sha, w.ref) := by
  unfold resolveWorkflows
  rw [hparse]
  dsimp only
  rw [hone]

/-- C2: on a successful run request whose parsed `referenced_workflows`
contain exactly one distinct match for the target — `dedup` of the filtered
list is the singleton `[w]`, so duplicates identical in `ref` and `sha`
collapse — resolution succeeds and returns exactly `(w.sha, w.ref)`. -/
theorem c2_unique_match (caller_repository : String) (caller_run_id : Nat)
    (targetRepo targetFile : String) (token : Option String) (out : ApiOutcome)
    (ws : List ReusableWorkflow) (w : ReusableWorkflow)
    (hstatus : ¬ (400 ≤ out.runStatus ∧ out.runStatus < 600))
    (hparse : parseAll out.referenced_workflows = some ws)
    (hone : (ws.filter (matchesTarget targetRepo targetFile)).dedup = [w]) :
    mainResolve caller_repository caller_run_id targetRepo targetFile token out
      = .ok (w.sha, w.ref) := by
  rw [mainResolve_success_path _ _ _ _ _ _ hstatus]
  exact resolveWorkflows_single _ _ _ ws w hparse hone

/-- Witness for C2 at the end-to-end example of the spec. -/
theorem c2_unique_match_witness :
    mainResolve "octocat/Hello-World" 8938022468 "acme/infra" "build.yaml" none
        ⟨200, 200, [("acme/infra/.github/workflows/build.yaml@v2.0.0", "abc123")]⟩
      = .ok ("abc123", "v2.0.0") :=
  c2_unique_match "octocat/Hello-World" 8938022468 "acme/infra" "build.yaml" none
    ⟨200, 200, [("acme/infra/.github/workflows/build.yaml@v2.0.0", "abc123")]⟩
    [⟨"abc123", "acme/infra", "build.yaml", "v2.0.0"⟩]
    ⟨"abc123", "acme/infra", "build.yaml", "v2.0.0"⟩
    (by decide) (by decide) (by decide)

/-- C5: on a successful run request with zero entries matching the target
repository and file name, resolution fails with `NoVersionFoundError`, and
the message names the requested file name and repository. -/
theorem c5_no_match (caller_repository : String) (caller_run_id : Nat)
    (targetRepo targetFile : String) (token : Option String) (out : ApiOutcome)
    (ws : List ReusableWorkflow)
    (hstatus : ¬ (400 ≤ out.runStatus ∧ out.runStatus < 600))
    (hparse : parseAll out.referenced_workflows = some ws)
    (hzero : ws.filter (matchesTarget targetRepo targetFile) = []) :
    mainResolve caller_repository caller_run_id targetRepo targetFile token out
      = .error (.noVersionFound (noVersionMessage targetFile targetRepo))
    ∧ targetFile.data <:+: (noVersionMessage targetFile targetRepo).data
    ∧ targetRepo.data <:+: (noVersionMessage targetFile targetRepo).data := by
  refine ⟨?_, ?_, ?_⟩
  · rw [mainResolve_success_path _ _ _ _ _ _ hstatus]
    unfold resolveWorkflows
    rw [hparse]
    dsimp only
    rw [hzero, List.dedup_nil]
  · exact ⟨("No reference found for reusable_workflow_file_name=" ++ "\x27").data,
      ("\x27" ++ " reusable_workflow_repository=" ++ pyRepr targetRepo).data, by
        simp [noVersionMessage, pyRepr, String.data_append, List.append_assoc]⟩
  · exact ⟨("No reference found for reusable_workflow_file_name=" ++ pyRepr targetFile
        ++ " reusable_workflow_repository=" ++ "\x27").data, ("\x27" : String).data, by
        simp [noVersionMessage, pyRepr, String.data_append, List.append_assoc]⟩

/-- Witness for C5 with an empty `referenced_workflows` list. -/
theorem c5_no_match_witness :
    mainResolve "o/r" 1 "acme/infra" "build.yaml" none ⟨200, 200, []⟩
      = .error (.noVersionFound (noVersionMessage "build.yaml" "acme/infra"))
    ∧ ("build.yaml" : String).data <:+: (noVersionMessage "build.yaml" "acme/infra").data
    ∧ ("acme/infra" : String).data <:+: (noVersionMessage "build.yaml" "acme/infra").data :=
  c5_no_match "o/r" 1 "acme/infra" "build.yaml" none ⟨200, 200, []⟩ []
    (by decide) (by decide) (by decide)

/-- Deduplicating a list whose elements are all equal to its head gives the
singleton head (the Python set of duplicates has one element). -/
theorem dedup_all_eq (w : ReusableWorkflow) :
    ∀ rest : List ReusableWorkflow, (∀ x ∈ rest, x = w) → (w :: rest).dedup = [w] := by
  intro rest
  induction rest with
  | nil => intro _; simp
  | cons y ys ih =>
    intro hall
    have hy : y = w := hall y (List.mem_cons_self y ys)
    subst hy
    rw [List.dedup_cons_of_mem (List.mem_cons_self y ys)]
    exact ih fun x hx => hall x (List.mem_cons_of_mem y hx)

/-- Each member of a list contributes its own `\n• {ref} ({sha})` line to
`ambiguousLines`. -/
theorem line_mem_ambiguousLines (w : ReusableWorkflow) :
    ∀ ms : List ReusableWorkflow, w ∈ ms →
      ("\n• " ++ w.ref ++ " (" ++ w.sha ++ ")").data <:+: (ambiguousLines ms).data := by
  intro ms
  induction ms with
  | nil => intro h; simp at h
  | cons y ys ih =>
    intro h
    rcases List.mem_cons.mp h with heq | h2
    · subst heq
      refine ⟨[], (ambiguousLines ys).data, ?_⟩
      simp [ambiguousLines, String.data_append, List.append_assoc]
    · obtain ⟨s, t, hst⟩ := ih h2
      refine ⟨("\n• " ++ y.ref ++ " (" ++ y.sha ++ ")").data ++ s, t, ?_⟩
      rw [ambiguousLines]
      simp only [String.data_append, List.append_assoc] at hst ⊢
      rw [← hst]

/-- C4: on a successful run request, when more than one distinct match
remains after deduplication, resolution fails with `AmbiguousVersionError`
whose message contains, for every matching entry, its own
`\n• {ref} ({sha})` line (so every distinct pair is listed one per line);
and when all matching entries are identical in `(ref, sha)`, they collapse
to one distinct match and resolution succeeds with that entry. -/
theorem c4_ambiguity (caller_repository : String) (caller_run_id : Nat)
    (targetRepo targetFile : String) (token : Option String) (out : ApiOutcome)
    (ws : List ReusableWorkflow)
    (hstatus : ¬ (400 ≤ out.runStatus ∧ out.runStatus < 600))
    (hparse : parseAll out.referenced_workflows = some ws) :
    (2 ≤ (ws.filter (matchesTarget targetRepo targetFile)).dedup.length →
      mainResolve caller_repository caller_run_id targetRepo targetFile token out
        = .error (.ambiguousVersion (ambiguousHeader targetFile targetRepo
            ++ ambiguousLines (ws.filter (matchesTarget targetRepo targetFile)).dedup))
      ∧ ∀ w ∈ ws.filter (matchesTarget targetRepo targetFile),
          ("\n• " ++ w.ref ++ " (" ++ w.sha ++ ")").data
            <:+: (ambiguousHeader targetFile targetRepo
                ++ ambiguousLines (ws.filter (matchesTarget targetRepo targetFile)).dedup).data)
    ∧ (∀ w rest, ws.filter (matchesTarget targetRepo targetFile) = w :: rest →
        (∀ x ∈ rest, x = w) →
        mainResolve caller_repository caller_run_id targetRepo targetFile token out
          = .ok (w.sha, w.ref)) := by
  constructor
  · intro hlen
    constructor
    · rw [mainResolve_success_path _ _ _ _ _ _ hstatus]
      unfold resolveWorkflows
      rw [hparse]
      dsimp only
      cases hd : (ws.filter (matchesTarget targetRepo targetFile)).dedup with
      | nil => rw [hd] at hlen; simp at hlen
      | cons m1 ms1 =>
        cases ms1 with
        | nil => rw [hd] at hlen; simp at hlen
        | cons m2 ms2 => rfl
    · intro w hw
      obtain ⟨s, t, hst⟩ :=
        line_mem_ambiguousLines w _ (List.mem_dedup.mpr hw)
      refine ⟨(ambiguousHeader targetFile targetRepo).data ++ s, t, ?_⟩
      simp only [String.data_append, List.append_assoc] at hst ⊢
      rw [← hst]
  · intro w rest hfil hall
    have hone : (ws.filter (matchesTarget targetRepo targetFile)).dedup = [w] := by
      rw [hfil]
      exact dedup_all_eq w rest hall
    rw [mainResolve_success_path _ _ _ _ _ _ hstatus]
    exact resolveWorkflows_single _ _ _ ws w hparse hone

/-- Witness for C4: two distinct versions are ambiguous; an exact duplicate
pair resolves. -/
theorem c4_ambiguity_witness :
    mainResolve "c/r" 1 "o/r" "f" none
        ⟨200, 200, [("o/r/.github/workflows/f@v1", "s1"), ("o/r/.github/workflows/f@v2", "s2")]⟩
      = .error (.ambiguousVersion (ambiguousHeader "f" "o/r"
          ++ ambiguousLines ([⟨"s1", "o/r", "f", "v1"⟩, ⟨"s2", "o/r", "f", "v2"⟩].filter
              (matchesTarget "o/r" "f")).dedup))
    ∧ mainResolve "c/r" 1 "o/r" "f" none
        ⟨200, 200, [("o/r/.github/workflows/f@v1", "s1"), ("o/r/.github/workflows/f@v1", "s1")]⟩
      = .ok ("s1", "v1") :=
  ⟨((c4_ambiguity "c/r" 1 "o/r" "f" none
      ⟨200, 200, [("o/r/.github/workflows/f@v1", "s1"), ("o/r/.github/workflows/f@v2", "s2")]⟩
      [⟨"s1", "o/r", "f", "v1"⟩, ⟨"s2", "o/r", "f", "v2"⟩]
      (by decide) (by decide)).1 (by decide)).1,
   (c4_ambiguity "c/r" 1 "o/r" "f" none
      ⟨200, 200, [("o/r/.github/workflows/f@v1", "s1"), ("o/r/.github/workflows/f@v1", "s1")]⟩
      [⟨"s1", "o/r", "f", "v1"⟩, ⟨"s1", "o/r", "f", "v1"⟩]
      (by decide) (by decide)).2
     ⟨"s1", "o/r", "f", "v1"⟩ [⟨"s1", "o/r", "f", "v1"⟩] (by decide) (by decide)⟩

/-- C3: classification of the HTTP outcomes of the run-metadata request —
403 raises the permission error; 404 with the repository-existence request
also 404 raises `RepositoryNotFoundError` whose message variant depends on
whether a token was supplied (the two variants are different messages);
404 with any other repository-existence status raises `RunNotFoundError`. -/
theorem c3_http_classification (caller_repository : String) (caller_run_id : Nat)
    (targetRepo targetFile : String) (token : Option String) (out : ApiOutcome) :
    (out.runStatus = 403 →
      mainResolve caller_repository caller_run_id targetRepo targetFile token out
        = .error (.permissionError permissionMessage))
    ∧ (out.runStatus = 404 → out.repoStatus = 404 → tokenPresent token = true →
      mainResolve caller_repository caller_run_id targetRepo targetFile token out
        = .error (.repositoryNotFound (repoNotFoundTokenMessage caller_repository)))
    ∧ (out.runStatus = 404 → out.repoStatus = 404 → tokenPresent token = false →
      mainResolve caller_repository caller_run_id targetRepo targetFile token out
        = .error (.repositoryNotFound (repoNotFoundNoTokenMessage caller_repository)))
    ∧ (out.runStatus = 404 → out.repoStatus ≠ 404 →
      mainResolve caller_repository caller_run_id targetRepo targetFile token out
        = .error (.runNotFound (runNotFoundMessage caller_run_id)))
    ∧ repoNotFoundTokenMessage caller_repository
        ≠ repoNotFoundNoTokenMessage caller_repository := by
  refine ⟨?_, ?_, ?_, ?_, ?_⟩
  · intro h403
    simp [mainResolve, h403]
  · intro h404 hrepo htok
    simp [mainResolve, h404, hrepo, htok]
  · intro h404 hrepo htok
    simp [mainResolve, h404, hrepo, htok]
  · intro h404 hrepo
    simp [mainResolve, h404, hrepo]
  · intro heq
    have hlen := congrArg String.length heq
    rw [repoNotFoundTokenMessage, repoNotFoundNoTokenMessage] at hlen
    simp only [String.length_append] at hlen
    have hdiff :
        (" not found. Check if `github-token` input has correct permissions" : String).length
          ≠ (" not found. If repository is private, pass `github-token` input to authenticate to GitHub" : String).length := by
      decide
    omega

/-- Witness for C3 at concrete statuses and tokens. -/
theorem c3_http_classification_witness :
    mainResolve "o/r" 7 "t/r" "f" none ⟨403, 200, []⟩
      = .error (.permissionError permissionMessage)
    ∧ mainResolve "o/r" 7 "t/r" "f" (some "tok") ⟨404, 404, []⟩
      = .error (.repositoryNotFound (repoNotFoundTokenMessage "o/r"))
    ∧ mainResolve "o/r" 7 "t/r" "f" none ⟨404, 404, []⟩
      = .error (.repositoryNotFound (repoNotFoundNoTokenMessage "o/r"))
    ∧ mainResolve "o/r" 7 "t/r" "f" none ⟨404, 200, []⟩
      = .error (.runNotFound (runNotFoundMessage 7))
    ∧ repoNotFoundTokenMessage "o/r" ≠ repoNotFoundNoTokenMessage "o/r" :=
  ⟨(c3_http_classification "o/r" 7 "t/r" "f" none ⟨403, 200, []⟩).1 (by decide),
   (c3_http_classification "o/r" 7 "t/r" "f" (some "tok") ⟨404, 404, []⟩).2.1
     (by decide) (by decide) (by decide),
   (c3_http_classification "o/r" 7 "t/r" "f" none ⟨404, 404, []⟩).2.2.1
     (by decide) (by decide) (by decide),
   (c3_http_classification "o/r" 7 "t/r" "f" none ⟨404, 200, []⟩).2.2.2.1
     (by decide) (by decide),
   (c3_http_classification "o/r" 7 "t/r" "f" none ⟨404, 200, []⟩).2.2.2.2⟩

/-- C10: on the 404 disambiguation path the code only compares the second
status against 404 — any other status, including failures such as 403 or
500, is taken as "repository exists" and yields `RunNotFoundError`. -/
theorem c10_unverified_repo_check (caller_repository : String) (caller_run_id : Nat)
    (targetRepo targetFile : String) (token : Option String) (out : ApiOutcome)
    (h404 : out.runStatus = 404) (hrepo : out.repoStatus ≠ 404) :
    mainResolve caller_repository caller_run_id targetRepo targetFile token out
      = .error (.runNotFound (runNotFoundMessage caller_run_id)) := by
  simp [mainResolve, h404, hrepo]

/-- Witness for C10 with a failing (500) repository-existence status. -/
theorem c10_unverified_repo_check_witness :
    mainResolve "o/r" 7 "t/r" "f" none ⟨404, 500, []⟩
      = .error (.runNotFound (runNotFoundMessage 7)) :=
  c10_unverified_repo_check "o/r" 7 "t/r" "f" none ⟨404, 500, []⟩ (by decide) (by decide)

/-- C9: the token value never influences any message or printed output —
two runs with different non-empty tokens and identical HTTP outcomes
produce identical results and identical printed output; the token value
reaches only the `Authorization: Bearer` request header, which is present
iff a token is present. -/
theorem c9_token_secrecy (caller_repository : String) (caller_run_id : Nat)
    (targetRepo targetFile : String) (out : ApiOutcome) (t1 t2 : String)
    (h1 : t1 ≠ "") (h2 : t2 ≠ "") :
    mainResolve caller_repository caller_run_id targetRepo targetFile (some t1) out
      = mainResolve caller_repository caller_run_id targetRepo targetFile (some t2) out
    ∧ programOutput (mainResolve caller_repository caller_run_id targetRepo targetFile
        (some t1) out)
      = programOutput (mainResolve caller_repository caller_run_id targetRepo targetFile
        (some t2) out)
    ∧ buildHeaders (some t1) = baseHeaders ++ [("Authorization", "Bearer " ++ t1)]
    ∧ buildHeaders none = baseHeaders := by
  have hp1 : tokenPresent (some t1) = true := by simp [tokenPresent, h1]
  have hp2 : tokenPresent (some t2) = true := by simp [tokenPresent, h2]
  have hmain :
      mainResolve caller_repository caller_run_id targetRepo targetFile (some t1) out
        = mainResolve caller_repository caller_run_id targetRepo targetFile (some t2) out := by
    unfold mainResolve
    rw [hp1, hp2]
  exact ⟨hmain, by rw [hmain], by simp [buildHeaders, h1], rfl⟩

/-- Witness for C9 with two different concrete tokens. -/
theorem c9_token_secrecy_witness :
    mainResolve "o/r" 7 "t/r" "f" (some "token-one") ⟨404, 404, []⟩
      = mainResolve "o/r" 7 "t/r" "f" (some "token-two") ⟨404, 404, []⟩
    ∧ programOutput (mainResolve "o/r" 7 "t/r" "f" (some "token-one") ⟨404, 404, []⟩)
      = programOutput (mainResolve "o/r" 7 "t/r" "f" (some "token-two") ⟨404, 404, []⟩)
    ∧ buildHeaders (some "token-one")
      = baseHeaders ++ [("Authorization", "Bearer " ++ "token-one")]
    ∧ buildHeaders none = baseHeaders :=
  c9_token_secrecy "o/r" 7 "t/r" "f" ⟨404, 404, []⟩ "token-one" "token-two"
    (by decide) (by decide)
